import Mathlib

/-!
Shallow embedding of the asl-zello-bridge program (files
`asl_zello_bridge/usrp.py`, `asl_zello_bridge/zello.py`,
`asl_zello_bridge/stream.py`) and proofs about it.

Modelling conventions:
* byte strings are `List ℕ` (each element a byte value, 0..255 in all
  states the program constructs);
* Python ints are `ℕ`/`ℤ`; Python floats are `ℚ` (the float arithmetic the
  program performs on gains and timestamps is modelled exactly over the
  rationals); wall-clock instants (`datetime.now`) are `ℚ` seconds;
* `asyncio.Event` flags are `Bool` fields; queue contents are explicit
  lists; each loop iteration is a state-transition function whose await
  results (reads, timeouts, PTT samples) are passed as parameters;
* a function that can raise (struct.pack/unpack on bad sizes) returns an
  `Option`, or pairs its result state with a Bool that is false when the
  iteration ended in an exception.
-/

namespace Usrp

/-- Constant USRP_FRAME_SIZE from usrp.py. -/
def USRP_FRAME_SIZE : ℕ := 352

/-- Constant USRP_HEADER_SIZE from usrp.py. -/
def USRP_HEADER_SIZE : ℕ := 32

/-- Constant USRP_VOICE_SIZE = USRP_FRAME_SIZE - USRP_HEADER_SIZE. -/
def USRP_VOICE_SIZE : ℕ := USRP_FRAME_SIZE - USRP_HEADER_SIZE

/-- Python `int()` applied to a (rational-modelled) float: truncation
toward zero (stated with the executable Rat.floor; see pyInt_eq for the
floor/ceil characterisation). -/
def pyInt (q : ℚ) : ℤ := if 0 ≤ q then q.floor else -((-q).floor)

/-- Function `db_to_linear(db)` from usrp.py: `math.pow(10, db / 10)`. -/
noncomputable def db_to_linear (db : ℤ) : ℝ := (10 : ℝ) ^ ((db : ℝ) / 10)

/-- Function `clamp_short(sh)` from usrp.py:
`int(max(-32768, min(32767, sh)))`. -/
def clamp_short (sh : ℚ) : ℤ := pyInt (max (-32768) (min 32767 sh))

/-- Decoding of 16-bit signed little-endian samples, as
`struct.unpack(f'\x7bn\x7dh', buf)` does (native byte order is little
endian on the supported targets).  Consumes bytes two at a time. -/
def bytesToSamples : List ℕ → List ℤ
  | lo :: hi :: rest =>
      (if lo + 256 * hi < 32768 then ((lo + 256 * hi : ℕ) : ℤ)
       else ((lo + 256 * hi : ℕ) : ℤ) - 65536) :: bytesToSamples rest
  | _ => []

/-- Encoding of one 16-bit signed sample back to two little-endian bytes,
as `struct.pack` does for format `h` (value taken mod 2^16). -/
def sampleToBytes (x : ℤ) : List ℕ :=
  [(x % 65536).toNat % 256, (x % 65536).toNat / 256]

/-- Concatenated encoding of a sample list (the `struct.pack(format, *...)`
call in `apply_gain`). -/
def samplesToBytes : List ℤ → List ℕ
  | [] => []
  | x :: rest => sampleToBytes x ++ samplesToBytes rest

/-- Function `apply_gain(buf, gain)` from usrp.py.  `struct.unpack` with
format `f'\x7bint(len(buf) / 2)\x7dh'` raises `struct.error` unless the
buffer length is exactly twice the sample count, i.e. even; that failure
case is `none`. -/
def apply_gain (buf : List ℕ) (gain : ℚ) : Option (List ℕ) :=
  if buf.length % 2 = 0 then
    some (samplesToBytes
      ((bytesToSamples buf).map fun (b : ℤ) => clamp_short (gain * (b : ℚ))))
  else none

/-- The gain-skip conditional appearing twice in usrp.py
(`datagram_received` line 75 and `_tx_frame` line 109):
`if gain != 1: frame = apply_gain(frame, gain)`. -/
def gain_step (gain : ℚ) (buf : List ℕ) : Option (List ℕ) :=
  if gain ≠ 1 then apply_gain buf gain else some buf

/-- Big-endian signed 32-bit decoding of four bytes, as one `>i` field of
`struct.unpack`. -/
def be32ToInt (b0 b1 b2 b3 : ℕ) : ℤ :=
  if b0 * 16777216 + b1 * 65536 + b2 * 256 + b3 < 2147483648 then
    ((b0 * 16777216 + b1 * 65536 + b2 * 256 + b3 : ℕ) : ℤ)
  else ((b0 * 16777216 + b1 * 65536 + b2 * 256 + b3 : ℕ) : ℤ) - 4294967296

/-- Big-endian 32-bit encoding of an integer (one `>i` field of
`struct.pack`, value taken mod 2^32; the program only ever packs values
inside the int32 range, where Python would otherwise raise). -/
def int32be (x : ℤ) : List ℕ :=
  [(x % 4294967296).toNat / 16777216 % 256,
   (x % 4294967296).toNat / 65536 % 256,
   (x % 4294967296).toNat / 256 % 256,
   (x % 4294967296).toNat % 256]

/-- Method `_rx_decode_state(frame)` from usrp.py: unpack
`frame[4:32]` as seven big-endian int32 fields
`(seq, mem, ptt, tg, type, mpx, res)`; `struct.unpack` raises unless the
slice holds exactly 28 bytes, i.e. unless the frame has at least 32
bytes. -/
def rx_decode_state (frame : List ℕ) :
    Option (ℤ × ℤ × ℤ × ℤ × ℤ × ℤ × ℤ) :=
  if 32 ≤ frame.length then
    let h := frame.drop 4
    let w : ℕ → ℤ := fun i =>
      be32ToInt (h.getD (4 * i) 0) (h.getD (4 * i + 1) 0)
        (h.getD (4 * i + 2) 0) (h.getD (4 * i + 3) 0)
    some (w 0, w 1, w 2, w 3, w 4, w 5, w 6)
  else none

/-- Method `_frame_ptt_state(frame)` from usrp.py: `state[2] == 1`. -/
def frame_ptt_state (frame : List ℕ) : Option Bool :=
  (rx_decode_state frame).map fun st => st.2.2.1 = 1

/-- State touched by the USRP ingress path: the `usrp_ptt` event and the
frames written to `stream_out` (the usrp_to_zello queue), in order. -/
structure RxState where
  usrp_ptt : Bool
  outQueue : List (List ℕ)
deriving DecidableEq

/-- Method `datagram_received(data, addr)` from usrp.py.  The Bool result
is false when the handler raised (undersized datagram, or `apply_gain` on
an odd-length payload); note the code sets `usrp_ptt` before applying
gain, so that flag survives a gain failure. -/
def datagram_received (gain_rx : ℚ) (s : RxState) (data : List ℕ) :
    RxState × Bool :=
  match frame_ptt_state data with
  | none => (s, false)
  | some ptt =>
    if ¬ ptt then ({ s with usrp_ptt := false }, true)
    else
      let s1 : RxState := { s with usrp_ptt := true }
      match gain_step gain_rx (data.drop USRP_HEADER_SIZE) with
      | none => (s1, false)
      | some frame => ({ s1 with outQueue := s1.outQueue ++ [frame] }, true)

/-- One frame handed to `transport.sendto` by the egress path, in the
structured form the code builds it from: the sequence number and ptt flag
packed by `_tx_encode_state` plus the payload appended after the header
(empty for `_tx_off`). -/
structure TxFrame where
  seq : ℕ
  ptt : Bool
  payload : List ℕ
deriving DecidableEq

/-- Method `_tx_encode_state(ptt)` from usrp.py:
`'USRP'` then `struct.pack('>iiiiiii', seq, 0, ptt, 0, USRP_TYPE_VOICE, 0, 0)`. -/
def tx_encode_state (seq : ℕ) (ptt : Bool) : List ℕ :=
  [85, 83, 82, 80] ++ int32be seq ++ int32be 0 ++
    int32be (if ptt then 1 else 0) ++ int32be 0 ++ int32be 0 ++
    int32be 0 ++ int32be 0

/-- The datagram bytes of a TxFrame: header followed by payload, exactly
as `_tx_frame` computes `frame = header + pcm` (and `_tx_off` sends the
bare header). -/
def encodeTxFrame (f : TxFrame) : List ℕ :=
  tx_encode_state f.seq f.ptt ++ f.payload

/-- State of the USRP egress task: the `_tx_seq` counter (initialised to 0
in the constructor), the bytes buffered in the zello_to_usrp stream, and
the datagrams sent so far. -/
structure TxState where
  tx_seq : ℕ
  queue : List ℕ
  sent : List TxFrame
deriving DecidableEq

/-- Methods `_get_seq` + `_tx_off` from usrp.py: `_get_seq` increments
`_tx_seq` and returns the incremented value, and `_tx_off` sends a bare
ptt=0 header with that value. -/
def tx_off (s : TxState) : TxState :=
  { s with tx_seq := s.tx_seq + 1,
           sent := s.sent ++ [⟨s.tx_seq + 1, false, []⟩] }

/-- One iteration of the `run_tx` loop of usrp.py (lines 123-135).
`ptt0` is the value `zello_ptt.is_set()` sampled at the top; `completes`
is true when `await zello_ptt.wait()` and the subsequent blocking
`stream_in.read(USRP_VOICE_SIZE)` both return within the iteration
(which requires the event to become set and the queue to receive data);
when false the iteration is still parked on those awaits and nothing
further happens.  The Bool result is false when `_tx_frame` raised inside
`apply_gain` (note the sequence counter was already consumed). -/
def run_tx_iter (gain_tx : ℚ) (s : TxState) (ptt0 completes : Bool) :
    TxState × Bool :=
  let s1 := if ptt0 then s else tx_off s
  if completes then
    let pcm := s1.queue.take USRP_VOICE_SIZE
    let s2 : TxState := { s1 with queue := s1.queue.drop USRP_VOICE_SIZE }
    if 0 < pcm.length then
      let s3 : TxState := { s2 with tx_seq := s2.tx_seq + 1 }
      match gain_step gain_tx pcm with
      | some pcm2 => ({ s3 with sent := s3.sent ++ [⟨s3.tx_seq, true, pcm2⟩] }, true)
      | none => (s3, false)
    else (s2, true)
  else (s1, true)

/-- Iterated `run_tx` loop; an exception (second component false)
terminates the coroutine, so the trace stops there. -/
def run_tx_trace (gain_tx : ℚ) : List (Bool × Bool) → TxState → TxState
  | [], s => s
  | (p, c) :: rest, s =>
    match run_tx_iter gain_tx s p c with
    | (s1, true) => run_tx_trace gain_tx rest s1
    | (s1, false) => s1

/-- The egress state as built by the USRPController constructor:
`_tx_seq = 0`, nothing sent, with the given bytes buffered in
zello_to_usrp. -/
def initTxState (q : List ℕ) : TxState := ⟨0, q, []⟩

end Usrp

namespace Zello

/-- Constant POST_LOGIN_COOLDOWN_SEC = 0.8 from zello.py. -/
def POST_LOGIN_COOLDOWN_SEC : ℚ := 4 / 5

/-- Constant CHANNEL_NOT_READY_BACKOFF_SEC = 0.5 from zello.py. -/
def CHANNEL_NOT_READY_BACKOFF_SEC : ℚ := 1 / 2

/-- Whole-second component of a nonnegative duration, as Python
`timedelta.seconds` yields it (seconds within the day component). -/
def tdSeconds (d : ℚ) : ℕ := d.floor.toNat % 86400

/-- Commands the controller writes to the WebSocket as JSON text
frames. -/
inductive ZCmd where
  | logon (seq : ℕ)
  | startStream (seq : ℕ)
  | stopStream (seq : ℕ) (stream_id : ℤ)
deriving DecidableEq

/-- The log lines the claims talk about, one constructor per logging
site. -/
inductive LogEvent where
  | loggedIn
  | authFailed
  | authSuccessful
  | serverError
  | kicked
  | woodpecker
  | emptyMessage
  | channelNotReady
  | channelReady
  | keyed (user : Option String)
  | unkeyed
  | invalidStream
deriving DecidableEq

/-- The ZelloController state (fields of zello.py touched by the claims;
purely diagnostic fields such as the frame statistics, `_talk_start`,
`_usrp_tx_start`, `_auth_started_at` and the monotonic-clock watchdog are
omitted).  `ws_open` is true when `_ws` is a live socket; `refresh_token`
records whether one is stored; `sent`, `sentFrames` and `log` record the
JSON commands, binary media frames and log lines produced so far. -/
structure ZState where
  seq : ℕ
  logged_in : Bool
  channel_ready : Bool
  txing : Bool
  stream_id : Option ℤ
  pkt_id : ℕ
  zello_ptt : Bool
  auth_in_progress : Bool
  auth_seq : Option ℕ
  refresh_token : Bool
  ws_open : Bool
  woodpecker_until : Option ℚ
  empty_msg_backoff_until : Option ℚ
  channel_backoff_until : Option ℚ
  start_retry_after : Option ℚ
  last_login_at : Option ℚ
  ptt_down_at : Option ℚ
  talk_user : Option String
  sent : List ZCmd
  sentFrames : List (ℤ × ℕ × List ℕ)
  log : List LogEvent
deriving DecidableEq

/-- Method `_reset_connection_state` from zello.py. -/
def reset_connection_state (s : ZState) : ZState :=
  { s with ws_open := false, logged_in := false, stream_id := none,
           txing := false, talk_user := none, channel_ready := false,
           auth_in_progress := false, channel_backoff_until := none,
           start_retry_after := none, auth_seq := none, zello_ptt := false }

/-- Method `_end_tx` from zello.py.  With a closed socket or no
stream_id it only clears `txing`; otherwise it sends
`stop_stream` carrying the current stream_id (`get_seq` returns the
counter value before incrementing) and then clears `txing`. -/
def end_tx (s : ZState) : ZState :=
  if ¬ s.ws_open then { s with txing := false }
  else
    match s.stream_id with
    | none => { s with txing := false }
    | some sid =>
      { s with seq := s.seq + 1,
               sent := s.sent ++ [.stopStream s.seq sid],
               txing := false }

/-- A parsed JSON text message, with one field per key the RX loop
probes (`data.get(...)`); `hasSuccess` is key presence of `success`,
`refresh_token` is key presence of `refresh_token`. -/
structure Msg where
  error : Option String
  command : Option String
  status : Option String
  hasSuccess : Bool
  seq : Option ℕ
  stream_id : Option ℤ
  refresh_token : Bool
  from_user : Option String
deriving DecidableEq

/-- The `woodpecker prohibited` branch of run_rx (zello.py lines
661-676): backoff defaults to 3 s; when the previous window is still
active it becomes `min(8, prev * 2)` where `prev` is the whole-second
part of the remaining window; then the window is re-armed and, when
transmitting, the stream is ended. -/
def woodpeckerStep (now : ℚ) (s : ZState) : ZState :=
  let backoff : ℕ :=
    match s.woodpecker_until with
    | some u => if now < u then min 8 (tdSeconds (u - now) * 2) else 3
    | none => 3
  let s1 := { s with woodpecker_until := some (now + backoff),
                     log := s.log ++ [.woodpecker] }
  if s1.txing then end_tx s1 else s1

/-- The `empty message` branch of run_rx (zello.py lines 677-693);
identical shape, with a 1 s initial backoff. -/
def emptyMessageStep (now : ℚ) (s : ZState) : ZState :=
  let backoff : ℕ :=
    match s.empty_msg_backoff_until with
    | some u => if now < u then min 8 (tdSeconds (u - now) * 2) else 1
    | none => 1
  let s1 := { s with empty_msg_backoff_until := some (now + backoff),
                     log := s.log ++ [.emptyMessage] }
  if s1.txing then end_tx s1 else s1

/-- The `channel is not ready` branch of run_rx (zello.py lines
694-706). -/
def channelNotReadyStep (now : ℚ) (s : ZState) : ZState :=
  { s with channel_ready := false,
           channel_backoff_until := some (now + CHANNEL_NOT_READY_BACKOFF_SEC),
           start_retry_after := some (now + CHANNEL_NOT_READY_BACKOFF_SEC),
           log := s.log ++ [.channelNotReady] }

/-- The `'command' in data` block of run_rx (zello.py lines 712-758):
`on_stream_start` sets `zello_ptt` and the talk user, `on_stream_stop`
clears them, `on_channel_status` mirrors `status == 'online'` into
`channel_ready`. -/
def commandStep (s : ZState) (m : Msg) : ZState :=
  match m.command with
  | none => s
  | some cmd =>
    if cmd = "on_stream_start" then
      { s with talk_user := m.from_user,
               log := s.log ++ [.keyed m.from_user],
               zello_ptt := true }
    else if cmd = "on_stream_stop" then
      { s with zello_ptt := false, talk_user := none,
               log := s.log ++ [.unkeyed] }
    else if cmd = "on_channel_status" then
      { s with channel_ready := m.status = some "online",
               log := if m.status = some "online" then s.log ++ [.channelReady]
                      else s.log }
    else s

/-- The `'success' in data` block of run_rx (zello.py lines 760-806).
Returns the updated state and the value the loop assigns to its local
`is_authorized` (true whenever the key is present).  A seq matching the
pending auth seq clears the auth-in-progress bookkeeping; a carried
stream_id is stored; a carried refresh token is stored and also clears
the auth bookkeeping. -/
def successStep (now : ℚ) (s : ZState) (m : Msg) : ZState × Bool :=
  if m.hasSuccess then
    let s1 := if s.auth_seq.isSome ∧ m.seq = s.auth_seq then
        { s with auth_in_progress := false, auth_seq := none,
                 last_login_at := some now, start_retry_after := none }
      else s
    let s2 := match m.stream_id with
      | some sid => { s1 with stream_id := some sid }
      | none => s1
    let s3 := if m.refresh_token then
        { s2 with refresh_token := true, auth_in_progress := false,
                  auth_seq := none, last_login_at := some now,
                  start_retry_after := none,
                  log := s2.log ++ [.authSuccessful] }
      else s2
    (s3, true)
  else (s, false)

/-- Per-connection view of run_rx: the shared controller state plus the
two loop-local flags `is_authorized` and `is_channel_available`
(zello.py lines 596-597). -/
structure RxConn where
  st : ZState
  is_authorized : Bool
  is_channel_available : Bool
deriving DecidableEq

/-- Handling of one TEXT WebSocket message by run_rx (zello.py lines
644-815), given the wall-clock time `now`.  The Bool result is true when
the branch executes `break`, tearing the connection down.  An `error`
key is dispatched first and never reaches the command/success handling;
a message without one flows through `commandStep`, `successStep` and
then the authorisation check at lines 808-815, which either breaks with
`Authentication failed` or (re)asserts `logged_in`, logging
`Logged in!` on the false-to-true edge. -/
def handleText (now : ℚ) (c : RxConn) (m : Msg) : RxConn × Bool :=
  match m.error with
  | some e =>
    if e = "kicked" then
      ({ c with st := reset_connection_state
                        { c.st with log := c.st.log ++ [.kicked] } }, true)
    else if e = "woodpecker prohibited" then
      ({ c with st := woodpeckerStep now c.st }, false)
    else if e = "empty message" then
      ({ c with st := emptyMessageStep now c.st }, false)
    else if e = "channel is not ready" then
      ({ c with st := channelNotReadyStep now c.st }, false)
    else
      ({ c with st := { c.st with log := c.st.log ++ [.serverError] } }, true)
  | none =>
    let s1 := commandStep c.st m
    let p := successStep now s1 m
    let c2 : RxConn := { c with st := p.1,
                                is_authorized := c.is_authorized || p.2 }
    if ¬ c2.is_authorized ∧ ¬ c2.is_channel_available then
      ({ c2 with st := { c2.st with log := c2.st.log ++ [.authFailed] } }, true)
    else
      ({ c2 with st :=
          { c2.st with
              log := if ¬ c2.st.logged_in then c2.st.log ++ [.loggedIn]
                     else c2.st.log,
              logged_in := true } }, false)

/-- The run_rx message loop over a list of timestamped TEXT messages;
`break` ends the connection and stops the trace. -/
def runRxTrace : List (ℚ × Msg) → RxConn → RxConn
  | [], c => c
  | (t, m) :: rest, c =>
    match handleText t c m with
    | (c1, true) => c1
    | (c1, false) => runRxTrace rest c1

/-- The connection state right after run_rx connects and `authenticate`
sends the logon (the first `get_seq` of the process returns 0, so
`auth_seq = 0` and the counter moves to 1); both loop locals start
false. -/
def freshConn : RxConn :=
  { st := { seq := 1, logged_in := false, channel_ready := false,
            txing := false, stream_id := none, pkt_id := 0,
            zello_ptt := false, auth_in_progress := true,
            auth_seq := some 0, refresh_token := false, ws_open := true,
            woodpecker_until := none, empty_msg_backoff_until := none,
            channel_backoff_until := none, start_retry_after := none,
            last_login_at := none, ptt_down_at := none, talk_user := none,
            sent := [.logon 0], sentFrames := [], log := [] },
    is_authorized := false, is_channel_available := false }

/-- Truthiness-plus-comparison pattern
`if self._x_until and now < self._x_until` used by the TX loop gates. -/
def activeWin (w : Option ℚ) (now : ℚ) : Bool :=
  match w with
  | some u => decide (now < u)
  | none => false

/-- Method `start_tx` from zello.py (lines 291-362).  `arrives` is the
stream_id the RX task stores while start_tx polls for up to 2 s
(`none` models the poll timing out).  The woodpecker and empty-message
windows are deliberately not consulted here; only run_tx gates on
them. -/
def start_tx (now : ℚ) (arrives : Option ℤ) (s : ZState) : ZState :=
  if ¬ s.ws_open then s
  else if s.auth_in_progress then s
  else if ¬ s.channel_ready then s
  else if (match s.last_login_at with
           | some t => decide (now - t < POST_LOGIN_COOLDOWN_SEC)
           | none => false) then s
  else if activeWin s.start_retry_after now then s
  else
    let s1 : ZState := { s with stream_id := none }
    let s2 : ZState := { s1 with seq := s1.seq + 1,
                                 sent := s1.sent ++ [ZCmd.startStream s1.seq] }
    match arrives with
    | none =>
      { s2 with start_retry_after := some (now + CHANNEL_NOT_READY_BACKOFF_SEC) }
    | some sid => { s2 with stream_id := some sid, txing := true,
                            pkt_id := 0, start_retry_after := none }

/-- The media-frame emission step of run_tx (zello.py lines 550-573):
pack `[0x01][stream_id:be32][pkt_id:be32][opus]`, advance `pkt_id` by
`(pkt_id + 1) & 0x7FFFFFFF`, and send when the socket is open; `sendOk`
false models `ws.send_bytes` raising, which ends the stream.  The
second component is the loop-local `sending` flag after the step. -/
def send_frame (sendOk : Bool) (s : ZState) (opus : List ℕ) :
    ZState × Bool :=
  match s.stream_id with
  | some sid =>
    let s1 := { s with pkt_id := Nat.land (s.pkt_id + 1) 2147483647 }
    if s1.ws_open then
      if sendOk then
        ({ s1 with sentFrames := s1.sentFrames ++ [(sid, s.pkt_id, opus)] }, true)
      else (end_tx s1, false)
    else (s1, true)
  | none =>
    (end_tx { s with log := s.log ++ [.invalidStream] }, false)

/-- The wire bytes of one emitted media frame,
`struct.pack('>bii', 1, stream_id, pkt_id) + opus`. -/
def media_frame_bytes (sid : ℤ) (pkt : ℕ) (opus : List ℕ) : List ℕ :=
  [1] ++ Usrp.int32be sid ++ Usrp.int32be pkt ++ opus

/-- Successive successful media-frame sends within one stream. -/
def send_frames : List (List ℕ) → ZState → ZState
  | [], s => s
  | o :: rest, s => send_frames rest (send_frame true s o).1

/-- Await results consumed by one iteration of the run_tx loop:
the sampled `usrp_ptt`, the outcome of the 1 s-bounded
`stream_in.read(640)` (`none` is a timeout), the 150 ms key-up debounce
comparison, the stream_id arrival inside `start_tx`, the abstract Opus
encoder output for this chunk, and whether `ws.send_bytes`
succeeded. -/
structure TxIterInput where
  usrp_ptt : Bool
  pcmRead : Option (List ℕ)
  arrives : Option ℤ
  encOut : List ℕ
  sendOk : Bool
deriving DecidableEq

/-- One iteration of the run_tx loop body of zello.py (lines 430-573),
with the loop-local `sending` flag threaded through (the
`first_pcm_logged` flag, debug logging, statistics and the redundant
auth watchdog are omitted).  Every `continue` shows up as returning the
state reached so far. -/
def runTxBody (now : ℚ) (inp : TxIterInput) (s : ZState) (sending : Bool) :
    ZState × Bool :=
  if ¬ s.ws_open then (s, sending)
  else if activeWin s.woodpecker_until now then (s, sending)
  else if activeWin s.empty_msg_backoff_until now then (s, sending)
  else if ¬ inp.usrp_ptt then
    let s1 := { s with ptt_down_at := none }
    if sending then (end_tx s1, false) else (s1, sending)
  else
    let s2 := if s.ptt_down_at = none then { s with ptt_down_at := some now }
              else s
    if (match s2.ptt_down_at with
        | some t => decide (now - t < 3 / 20)
        | none => false) then (s2, sending)
    else
      match inp.pcmRead with
      | none => if sending then (end_tx s2, false) else (s2, sending)
      | some pcm =>
        if pcm.length = 0 then (s2, sending)
        else if pcm.length < 320 then (s2, sending)
        else if s2.zello_ptt then (s2, sending)
        else if ¬ s2.logged_in then (s2, sending)
        else if s2.auth_in_progress then (s2, sending)
        else if ¬ s2.channel_ready then (s2, sending)
        else if (match s2.last_login_at with
                 | some t => decide (now - t < POST_LOGIN_COOLDOWN_SEC)
                 | none => false) then (s2, sending)
        else if activeWin s2.start_retry_after now then (s2, sending)
        else
          let s3 := if ¬ sending then start_tx now inp.arrives s2 else s2
          if ¬ sending ∧ (s3.txing = false ∨ s3.stream_id = none) then
            (s3, sending)
          else
            send_frame inp.sendOk s3 inp.encOut

end Zello

namespace Usrp

theorem pyInt_eq (q : ℚ) : pyInt q = if 0 ≤ q then ⌊q⌋ else ⌈q⌉ := by
  unfold pyInt
  have hf : ∀ r : ℚ, r.floor = ⌊r⌋ := fun r => by
    rw [Rat.floor_def', Rat.floor_def]
  split
  · rw [hf]
  · rw [hf, Int.floor_neg, neg_neg]

theorem clamp_short_range (q : ℚ) :
    -32768 ≤ clamp_short q ∧ clamp_short q ≤ 32767 := by
  unfold clamp_short
  rw [pyInt_eq]
  have h1 : (-32768 : ℚ) ≤ max (-32768) (min 32767 q) := le_max_left _ _
  have h2 : max (-32768) (min 32767 q) ≤ 32767 :=
    max_le (by norm_num) (min_le_left _ _)
  split
  · refine ⟨Int.le_floor.mpr (by exact_mod_cast h1), ?_⟩
    have hf : (↑⌊max (-32768) (min 32767 q)⌋ : ℚ) ≤ 32767 :=
      le_trans (Int.floor_le _) h2
    exact_mod_cast hf
  · refine ⟨?_, Int.ceil_le.mpr (by exact_mod_cast h2)⟩
    have hc : (-32768 : ℚ) ≤ (↑⌈max (-32768) (min 32767 q)⌉ : ℚ) :=
      le_trans h1 (Int.le_ceil _)
    exact_mod_cast hc

theorem samplesToBytes_length (L : List ℤ) :
    (samplesToBytes L).length = 2 * L.length := by
  induction L with
  | nil => rfl
  | cons x rest ih =>
      simp [samplesToBytes, sampleToBytes, ih]
      omega

theorem bytesToSamples_length :
    ∀ buf : List ℕ, (bytesToSamples buf).length = buf.length / 2
  | [] => by simp [bytesToSamples]
  | [a] => by simp [bytesToSamples]
  | lo :: hi :: rest => by
      simp [bytesToSamples, bytesToSamples_length rest]
      omega

theorem bytesToSamples_sampleToBytes (x : ℤ) (rest : List ℕ)
    (h1 : -32768 ≤ x) (h2 : x ≤ 32767) :
    bytesToSamples (sampleToBytes x ++ rest) = x :: bytesToSamples rest := by
  have hmod0 : (0 : ℤ) ≤ x % 65536 := Int.emod_nonneg x (by norm_num)
  have hmod1 : x % 65536 < 65536 := Int.emod_lt_of_pos x (by norm_num)
  have hxe : x % 65536 = if 0 ≤ x then x else x + 65536 := by
    split <;> omega
  simp only [sampleToBytes, List.cons_append, List.nil_append, bytesToSamples]
  congr 1
  split at hxe <;> rw [hxe] <;> split <;> omega

theorem bytesToSamples_samplesToBytes (L : List ℤ)
    (h : ∀ x ∈ L, -32768 ≤ x ∧ x ≤ 32767) :
    bytesToSamples (samplesToBytes L) = L := by
  induction L with
  | nil => rfl
  | cons x rest ih =>
      have hx := h x (by simp)
      rw [samplesToBytes, bytesToSamples_sampleToBytes x _ hx.1 hx.2,
        ih (fun y hy => h y (by simp [hy]))]

theorem gain_step_length (gain : ℚ) (buf out : List ℕ)
    (h : gain_step gain buf = some out) : out.length = buf.length := by
  unfold gain_step apply_gain at h
  split at h
  · split at h
    · next heven =>
      cases h
      simp [samplesToBytes_length, bytesToSamples_length]
      omega
    · cases h
  · cases h
    rfl

end Usrp

/-- C8: gain conversion is linear = 10^(dB/10); at 0 dB the linear gain
is 1 and the skip branch passes the payload through byte-identical with
no per-sample math; for any other gain each int16 sample is multiplied
by the gain and saturated to [-32768, 32767] (no wraparound), and the
output buffer has the same byte length as the (even-length) input. -/
theorem C8_gain_semantics (gain : ℚ) (buf : List ℕ)
    (hg : gain ≠ 1) (heven : buf.length % 2 = 0) :
    Usrp.db_to_linear 0 = 1 ∧
    Usrp.gain_step 1 buf = some buf ∧
    ∃ out, Usrp.gain_step gain buf = some out ∧
      out.length = buf.length ∧
      Usrp.bytesToSamples out =
        (Usrp.bytesToSamples buf).map
          (fun (b : ℤ) => Usrp.clamp_short (gain * (b : ℚ))) ∧
      ∀ x ∈ Usrp.bytesToSamples out, -32768 ≤ x ∧ x ≤ 32767 := by
  have hrange : ∀ x ∈ (Usrp.bytesToSamples buf).map
      (fun (b : ℤ) => Usrp.clamp_short (gain * (b : ℚ))),
      -32768 ≤ x ∧ x ≤ 32767 := by
    intro x hx
    simp only [List.mem_map] at hx
    obtain ⟨b, _, hb⟩ := hx
    rw [← hb]
    exact Usrp.clamp_short_range _
  refine ⟨?_, ?_, ?_⟩
  · simp [Usrp.db_to_linear]
  · simp [Usrp.gain_step]
  · refine ⟨Usrp.samplesToBytes ((Usrp.bytesToSamples buf).map
      (fun (b : ℤ) => Usrp.clamp_short (gain * (b : ℚ)))), ?_, ?_, ?_, ?_⟩
    · simp [Usrp.gain_step, Usrp.apply_gain, hg, heven]
    · rw [Usrp.samplesToBytes_length, List.length_map,
        Usrp.bytesToSamples_length]
      omega
    · exact Usrp.bytesToSamples_samplesToBytes _ hrange
    · rw [Usrp.bytesToSamples_samplesToBytes _ hrange]
      exact hrange

/-- Witness instantiating C8_gain_semantics at gain 2 on a two-sample
buffer. -/
theorem C8_gain_semantics_witness :
    Usrp.db_to_linear 0 = 1 ∧
    Usrp.gain_step 1 [16, 128, 255, 127] = some [16, 128, 255, 127] ∧
    ∃ out, Usrp.gain_step 2 [16, 128, 255, 127] = some out ∧
      out.length = [16, 128, 255, 127].length ∧
      Usrp.bytesToSamples out =
        (Usrp.bytesToSamples [16, 128, 255, 127]).map
          (fun (b : ℤ) => Usrp.clamp_short (2 * (b : ℚ))) ∧
      ∀ x ∈ Usrp.bytesToSamples out, -32768 ≤ x ∧ x ≤ 32767 :=
  C8_gain_semantics 2 [16, 128, 255, 127] (by norm_num) (by decide)

/-- Datagram whose header carries ptt field 2 (a nonzero value other
than 1): 32 header bytes, seq 7. -/
def pttTwoFrame : List ℕ :=
  [85, 83, 82, 80, 0, 0, 0, 7, 0, 0, 0, 0, 0, 0, 0, 2,
   0, 0, 0, 0, 0, 0, 0, 0, 0, 0, 0, 0, 0, 0, 0, 0]

/-- C9 counterexample: the claim says any datagram whose ptt field is
not 0 makes the endpoint set usrp_ptt and enqueue the payload, but on a
datagram with ptt field 2 the code (which tests `state[2] == 1`) clears
usrp_ptt and drops the payload. -/
theorem C9_counterexample :
    (Usrp.rx_decode_state pttTwoFrame).map (fun st => st.2.2.1) = some 2 ∧
    (Usrp.datagram_received 1 ⟨true, []⟩ pttTwoFrame).1.usrp_ptt = false ∧
    (Usrp.datagram_received 1 ⟨true, []⟩ pttTwoFrame).1.outQueue = [] ∧
    (Usrp.datagram_received 1 ⟨true, []⟩ pttTwoFrame).2 = true := by
  decide

/-- C9 (amended): for every received datagram that decodes, if the
header ptt field is not 1 the endpoint clears usrp_ptt, drops the
payload and returns; if it is 1 it sets usrp_ptt, takes the payload
after the 32-byte header (320 bytes for a 352-byte datagram), applies RX
gain through the gain-skip step, and enqueues the result (of the same
length) on usrp_to_zello. -/
theorem C9_ingress (gain : ℚ) (s : Usrp.RxState) (data : List ℕ)
    (st : ℤ × ℤ × ℤ × ℤ × ℤ × ℤ × ℤ)
    (hdec : Usrp.rx_decode_state data = some st) :
    (st.2.2.1 ≠ 1 →
      Usrp.datagram_received gain s data = ({ s with usrp_ptt := false }, true)) ∧
    (st.2.2.1 = 1 →
      ∀ out, Usrp.gain_step gain (data.drop Usrp.USRP_HEADER_SIZE) = some out →
        Usrp.datagram_received gain s data =
          (⟨true, s.outQueue ++ [out]⟩, true) ∧
        out.length = (data.drop Usrp.USRP_HEADER_SIZE).length) ∧
    (data.length = Usrp.USRP_FRAME_SIZE →
      (data.drop Usrp.USRP_HEADER_SIZE).length = 320) := by
  refine ⟨?_, ?_, ?_⟩
  · intro hptt
    unfold Usrp.datagram_received Usrp.frame_ptt_state
    rw [hdec]
    simp [hptt]
  · intro hptt out hout
    unfold Usrp.datagram_received Usrp.frame_ptt_state
    rw [hdec]
    simp only [Option.map_some]
    rw [hout]
    simp [hptt]
    simpa [List.length_drop] using Usrp.gain_step_length _ _ _ hout
  · intro hlen
    simp [List.length_drop, hlen, Usrp.USRP_FRAME_SIZE, Usrp.USRP_HEADER_SIZE]

/-- Keyed 34-byte datagram (header with ptt 1, two payload bytes) used
to witness C9_ingress. -/
def keyedFrame : List ℕ :=
  [85, 83, 82, 80, 0, 0, 0, 9, 0, 0, 0, 0, 0, 0, 0, 1,
   0, 0, 0, 0, 0, 0, 0, 0, 0, 0, 0, 0, 0, 0, 0, 0, 5, 6]

/-- Witness instantiating C9_ingress on keyedFrame with RX gain 2. -/
theorem C9_ingress_witness :
    Usrp.datagram_received 2 ⟨false, []⟩ keyedFrame =
      (⟨true, [[10, 12]]⟩, true) ∧
    ([10, 12] : List ℕ).length =
      (keyedFrame.drop Usrp.USRP_HEADER_SIZE).length := by
  have hcl : Usrp.clamp_short 3082 = 3082 := by
    rw [Usrp.clamp_short, Usrp.pyInt_eq]
    norm_num
  have hgs : Usrp.gain_step 2 (keyedFrame.drop Usrp.USRP_HEADER_SIZE) =
      some [10, 12] := by
    have hd : keyedFrame.drop Usrp.USRP_HEADER_SIZE = [5, 6] := rfl
    rw [hd]
    rw [Usrp.gain_step, Usrp.apply_gain]
    norm_num [Usrp.bytesToSamples, Usrp.samplesToBytes, Usrp.sampleToBytes, hcl]
    decide
  have h := C9_ingress 2 ⟨false, []⟩ keyedFrame (9, 0, 1, 0, 0, 0, 0) rfl
  exact (h.2.1 rfl [10, 12] hgs)

theorem voice_size_pos : 0 < Usrp.USRP_VOICE_SIZE := by
  norm_num [Usrp.USRP_VOICE_SIZE, Usrp.USRP_FRAME_SIZE, Usrp.USRP_HEADER_SIZE]

theorem take_voice_pos (q : List ℕ) (hq : q ≠ []) :
    0 < (q.take Usrp.USRP_VOICE_SIZE).length := by
  have h1 := voice_size_pos
  have h2 : 0 < q.length := List.length_pos.mpr hq
  simp only [List.length_take]
  omega

/-- C1 counterexample: the claim says that whenever zello_ptt is set the
egress loop sends one unkey frame and does not drain zello_to_usrp,
reading the queue only when zello_ptt is clear; but with zello_ptt
sampled set and four bytes buffered, the iteration emits a single keyed
(ptt=1) frame carrying those bytes and empties the queue. -/
theorem C1_counterexample :
    (Usrp.run_tx_iter 1 (Usrp.initTxState [1, 2, 3, 4]) true true).1.sent =
      [⟨1, true, [1, 2, 3, 4]⟩] ∧
    (Usrp.run_tx_iter 1 (Usrp.initTxState [1, 2, 3, 4]) true true).1.queue =
      [] := by
  decide

/-- C1 (amended): whenever zello_ptt is sampled clear at the top of a
run_tx iteration, one unkey frame (ptt=0, bare header, no payload) is
sent first; the queue is read only once the wait for zello_ptt
completes, and then up to 320 bytes are taken from zello_to_usrp, TX
gain is applied through the gain-skip step, and a frame with ptt=1 and
the next seq is sent over UDP. -/
theorem C1_egress (gain : ℚ) (s : Usrp.TxState) (p c : Bool) :
    (p = false → ∃ rest, (Usrp.run_tx_iter gain s p c).1.sent =
        s.sent ++ Usrp.TxFrame.mk (s.tx_seq + 1) false [] :: rest) ∧
    (c = false → (Usrp.run_tx_iter gain s p c).1.queue = s.queue ∧
        (p = true → Usrp.run_tx_iter gain s p c = (s, true))) ∧
    (c = true → p = true → 0 < s.queue.length →
      ∀ out,
        Usrp.gain_step gain (s.queue.take Usrp.USRP_VOICE_SIZE) = some out →
        Usrp.run_tx_iter gain s p c =
          (⟨s.tx_seq + 1, s.queue.drop Usrp.USRP_VOICE_SIZE,
            s.sent ++ [⟨s.tx_seq + 1, true, out⟩]⟩, true)) := by
  refine ⟨?_, ?_, ?_⟩
  · rintro rfl
    cases c with
    | false => exact ⟨[], by simp [Usrp.run_tx_iter, Usrp.tx_off]⟩
    | true =>
      rcases eq_or_ne s.queue [] with hq | hq
      · refine ⟨[], ?_⟩
        simp only [Usrp.run_tx_iter, Usrp.tx_off, Bool.false_eq_true,
          if_false, if_true, hq, List.take_nil, List.length_nil,
          lt_self_iff_false]
      · have hlen := take_voice_pos s.queue hq
        cases hout : Usrp.gain_step gain
            (s.queue.take Usrp.USRP_VOICE_SIZE) with
        | some out =>
            refine ⟨[⟨s.tx_seq + 1 + 1, true, out⟩], ?_⟩
            simp only [Usrp.run_tx_iter, Usrp.tx_off, Bool.false_eq_true,
              if_false, if_true, hlen, hout]
            simp [List.append_assoc]
        | none =>
            refine ⟨[], ?_⟩
            simp only [Usrp.run_tx_iter, Usrp.tx_off, Bool.false_eq_true,
              if_false, if_true, hlen, hout]
  · rintro rfl
    cases p <;> simp [Usrp.run_tx_iter, Usrp.tx_off]
  · rintro rfl rfl hq out hout
    have hlen := take_voice_pos s.queue (by
      intro h
      rw [h] at hq
      simp at hq)
    simp only [Usrp.run_tx_iter, Usrp.tx_off, if_true, hlen, hout]

/-- Witness instantiating C1_egress with zello_ptt set and two bytes
buffered. -/
theorem C1_egress_witness :
    Usrp.run_tx_iter 1 ⟨0, [9, 9], []⟩ true true =
      (⟨1, [], [⟨1, true, [9, 9]⟩]⟩, true) :=
  (C1_egress 1 ⟨0, [9, 9], []⟩ true true).2.2 rfl rfl (by decide) [9, 9]
    (by decide)

theorem encodeTxFrame_length (f : Usrp.TxFrame) :
    (Usrp.encodeTxFrame f).length = 32 + f.payload.length := by
  simp [Usrp.encodeTxFrame, Usrp.tx_encode_state, Usrp.int32be]
  omega

/-- Case analysis of the frames a single run_tx iteration can emit. -/
theorem run_tx_iter_sent_cases (gain : ℚ) (s : Usrp.TxState) (p c : Bool)
    (f : Usrp.TxFrame) (hf : f ∈ (Usrp.run_tx_iter gain s p c).1.sent) :
    f ∈ s.sent ∨ (∃ n, f = ⟨n, false, []⟩) ∨
    (∃ n out,
      Usrp.gain_step gain (s.queue.take Usrp.USRP_VOICE_SIZE) = some out ∧
      f = ⟨n, true, out⟩) := by
  cases p <;> cases c
  · simp only [Usrp.run_tx_iter, Usrp.tx_off, Bool.false_eq_true, if_false,
      if_true] at hf
    rcases List.mem_append.mp hf with hf | hf
    · exact Or.inl hf
    · exact Or.inr (Or.inl ⟨_, List.mem_singleton.mp hf⟩)
  · rcases eq_or_ne s.queue [] with hq | hq
    · simp only [Usrp.run_tx_iter, Usrp.tx_off, Bool.false_eq_true, if_false,
        if_true, hq, List.take_nil, List.length_nil, lt_self_iff_false] at hf
      rcases List.mem_append.mp hf with hf | hf
      · exact Or.inl hf
      · exact Or.inr (Or.inl ⟨_, List.mem_singleton.mp hf⟩)
    · have hlen := take_voice_pos s.queue hq
      cases hout : Usrp.gain_step gain
          (s.queue.take Usrp.USRP_VOICE_SIZE) with
      | some out =>
          simp only [Usrp.run_tx_iter, Usrp.tx_off, Bool.false_eq_true,
            if_false, if_true, hlen, hout] at hf
          rcases List.mem_append.mp hf with hf | hf
          · rcases List.mem_append.mp hf with hf | hf
            · exact Or.inl hf
            · exact Or.inr (Or.inl ⟨_, List.mem_singleton.mp hf⟩)
          · exact Or.inr (Or.inr ⟨_, out, rfl, List.mem_singleton.mp hf⟩)
      | none =>
          simp only [Usrp.run_tx_iter, Usrp.tx_off, Bool.false_eq_true,
            if_false, if_true, hlen, hout] at hf
          rcases List.mem_append.mp hf with hf | hf
          · exact Or.inl hf
          · exact Or.inr (Or.inl ⟨_, List.mem_singleton.mp hf⟩)
  · simp only [Usrp.run_tx_iter, Usrp.tx_off, Bool.false_eq_true, if_false,
      if_true] at hf
    exact Or.inl hf
  · rcases eq_or_ne s.queue [] with hq | hq
    · simp only [Usrp.run_tx_iter, Usrp.tx_off, Bool.false_eq_true, if_false,
        if_true, hq, List.take_nil, List.length_nil,
        lt_self_iff_false] at hf
      exact Or.inl hf
    · have hlen := take_voice_pos s.queue hq
      cases hout : Usrp.gain_step gain
          (s.queue.take Usrp.USRP_VOICE_SIZE) with
      | some out =>
          simp only [Usrp.run_tx_iter, Usrp.tx_off, Bool.false_eq_true,
            if_false, if_true, hlen, hout] at hf
          rcases List.mem_append.mp hf with hf | hf
          · exact Or.inl hf
          · exact Or.inr (Or.inr ⟨_, out, rfl, List.mem_singleton.mp hf⟩)
      | none =>
          simp only [Usrp.run_tx_iter, Usrp.tx_off, Bool.false_eq_true,
            if_false, if_true, hlen, hout] at hf
          exact Or.inl hf

/-- C3 counterexample: the claim says every emitted datagram is exactly
352 bytes with unkey frames carrying an all-zero 320-byte payload; but
an idle iteration emits the bare 32-byte header frame of _tx_off. -/
theorem C3_counterexample :
    (Usrp.run_tx_iter 1 (Usrp.initTxState []) false false).1.sent =
      [⟨1, false, []⟩] ∧
    (Usrp.encodeTxFrame ⟨1, false, []⟩).length = 32 ∧
    (Usrp.encodeTxFrame ⟨1, false, []⟩).length ≠ 352 := by
  decide

/-- C3 (amended): every datagram the egress loop emits is either an
unkey frame (ptt=0) of exactly 32 bytes with no payload, or a keyed
frame (ptt=1) of 32 bytes plus its payload, which makes 352 bytes
exactly when at least 320 bytes were buffered in zello_to_usrp at the
read. -/
theorem C3_frame_sizes (gain : ℚ) (s : Usrp.TxState) (p c : Bool)
    (f : Usrp.TxFrame) (hf : f ∈ (Usrp.run_tx_iter gain s p c).1.sent) :
    f ∈ s.sent ∨
    (f.ptt = false ∧ f.payload = [] ∧ (Usrp.encodeTxFrame f).length = 32) ∨
    (f.ptt = true ∧ (Usrp.encodeTxFrame f).length = 32 + f.payload.length ∧
      (Usrp.USRP_VOICE_SIZE ≤ s.queue.length →
        (Usrp.encodeTxFrame f).length = Usrp.USRP_FRAME_SIZE)) := by
  rcases run_tx_iter_sent_cases gain s p c f hf with h | ⟨n, rfl⟩ |
    ⟨n, out, hout, rfl⟩
  · exact Or.inl h
  · exact Or.inr (Or.inl ⟨rfl, rfl, encodeTxFrame_length _⟩)
  · refine Or.inr (Or.inr ⟨rfl, encodeTxFrame_length _, fun h320 => ?_⟩)
    have hlen := Usrp.gain_step_length _ _ _ hout
    rw [encodeTxFrame_length]
    simp only [List.length_take] at hlen
    simp only [Usrp.USRP_VOICE_SIZE, Usrp.USRP_FRAME_SIZE,
      Usrp.USRP_HEADER_SIZE] at h320 hlen ⊢
    omega

set_option maxRecDepth 4000 in
/-- Witness instantiating C3_frame_sizes on the keyed frame produced
from a 320-byte queue. -/
theorem C3_frame_sizes_witness :
    (⟨1, true, List.replicate 320 3⟩ : Usrp.TxFrame) ∈
        (Usrp.initTxState (List.replicate 320 3)).sent ∨
    ((⟨1, true, List.replicate 320 3⟩ : Usrp.TxFrame).ptt = false ∧
      (⟨1, true, List.replicate 320 3⟩ : Usrp.TxFrame).payload = [] ∧
      (Usrp.encodeTxFrame ⟨1, true, List.replicate 320 3⟩).length = 32) ∨
    ((⟨1, true, List.replicate 320 3⟩ : Usrp.TxFrame).ptt = true ∧
      (Usrp.encodeTxFrame ⟨1, true, List.replicate 320 3⟩).length =
        32 + (⟨1, true, List.replicate 320 3⟩ : Usrp.TxFrame).payload.length ∧
      (Usrp.USRP_VOICE_SIZE ≤
          (Usrp.initTxState (List.replicate 320 3)).queue.length →
        (Usrp.encodeTxFrame ⟨1, true, List.replicate 320 3⟩).length =
          Usrp.USRP_FRAME_SIZE)) :=
  C3_frame_sizes 1 (Usrp.initTxState (List.replicate 320 3)) true true
    ⟨1, true, List.replicate 320 3⟩ (by decide)

theorem seq_append_one (l : List Usrp.TxFrame) (f : Usrp.TxFrame)
    (h : l.map Usrp.TxFrame.seq = List.range' 1 l.length)
    (hf : f.seq = l.length + 1) :
    (l ++ [f]).map Usrp.TxFrame.seq = List.range' 1 (l ++ [f]).length := by
  rw [List.map_append, h, List.length_append, List.length_singleton,
    List.range'_concat]
  simp [hf, Nat.add_comm]

/-- The per-iteration invariant behind the seq discipline: if the frames
sent so far carry seqs 1..n and the counter equals n, the iteration
keeps the sent seqs an initial segment, and a clean (non-raising)
iteration restores the counter identity. -/
theorem run_tx_iter_seqs (gain : ℚ) (s : Usrp.TxState) (p c : Bool)
    (h1 : s.tx_seq = s.sent.length)
    (h2 : s.sent.map Usrp.TxFrame.seq = List.range' 1 s.sent.length) :
    (Usrp.run_tx_iter gain s p c).1.sent.map Usrp.TxFrame.seq =
      List.range' 1 (Usrp.run_tx_iter gain s p c).1.sent.length ∧
    ((Usrp.run_tx_iter gain s p c).2 = true →
      (Usrp.run_tx_iter gain s p c).1.tx_seq =
        (Usrp.run_tx_iter gain s p c).1.sent.length) := by
  have hoff1 : (Usrp.tx_off s).sent.map Usrp.TxFrame.seq =
      List.range' 1 (Usrp.tx_off s).sent.length :=
    seq_append_one s.sent _ h2 (by simp [h1])
  have hoff2 : (Usrp.tx_off s).tx_seq = (Usrp.tx_off s).sent.length := by
    simp [Usrp.tx_off, h1]
  cases p <;> cases c
  · simpa only [Usrp.run_tx_iter, Usrp.tx_off, Bool.false_eq_true, if_false,
      if_true] using ⟨hoff1, fun _ => hoff2⟩
  · rcases eq_or_ne s.queue [] with hq | hq
    · simp only [Usrp.run_tx_iter, Usrp.tx_off, Bool.false_eq_true, if_false,
        if_true, hq, List.take_nil, List.length_nil, lt_self_iff_false]
      exact ⟨hoff1, fun _ => hoff2⟩
    · have hlen := take_voice_pos s.queue hq
      cases hout : Usrp.gain_step gain
          (s.queue.take Usrp.USRP_VOICE_SIZE) with
      | some out =>
          simp only [Usrp.run_tx_iter, Usrp.tx_off, Bool.false_eq_true,
            if_false, if_true, hlen, hout]
          constructor
          · exact seq_append_one _ _ hoff1 (by simp [Usrp.tx_off, h1])
          · intro
            simp [Usrp.tx_off, h1, List.length_append]
      | none =>
          simp only [Usrp.run_tx_iter, Usrp.tx_off, Bool.false_eq_true,
            if_false, if_true, hlen, hout]
          exact ⟨hoff1, fun h => by cases h⟩
  · simpa only [Usrp.run_tx_iter, Bool.false_eq_true, if_false, if_true]
      using ⟨h2, fun _ => h1⟩
  · rcases eq_or_ne s.queue [] with hq | hq
    · simp only [Usrp.run_tx_iter, if_true, hq, List.take_nil,
        List.length_nil, lt_self_iff_false, if_false]
      exact ⟨h2, fun _ => h1⟩
    · have hlen := take_voice_pos s.queue hq
      cases hout : Usrp.gain_step gain
          (s.queue.take Usrp.USRP_VOICE_SIZE) with
      | some out =>
          simp only [Usrp.run_tx_iter, if_true, hlen, hout]
          constructor
          · exact seq_append_one _ _ h2 (by simp [h1])
          · intro
            simp [h1, List.length_append]
      | none =>
          simp only [Usrp.run_tx_iter, if_true, hlen, hout]
          exact ⟨h2, fun h => by cases h⟩

theorem run_tx_trace_seqs (gain : ℚ) (L : List (Bool × Bool)) :
    ∀ s : Usrp.TxState, s.tx_seq = s.sent.length →
    s.sent.map Usrp.TxFrame.seq = List.range' 1 s.sent.length →
    (Usrp.run_tx_trace gain L s).sent.map Usrp.TxFrame.seq =
      List.range' 1 (Usrp.run_tx_trace gain L s).sent.length := by
  induction L with
  | nil =>
      intro s h1 h2
      simpa only [Usrp.run_tx_trace] using h2
  | cons pc rest ih =>
      intro s h1 h2
      obtain ⟨p, c⟩ := pc
      have h := run_tx_iter_seqs gain s p c h1 h2
      unfold Usrp.run_tx_trace
      rcases hr : Usrp.run_tx_iter gain s p c with ⟨s1, ok⟩
      rw [hr] at h
      cases ok
      · exact h.1
      · exact ih s1 (h.2 rfl) h.1

/-- C6 counterexample: the claim says the first emitted frame carries
seq 0, but the counter is pre-incremented, so the first frame of a run
(here the idle unkey frame) carries seq 1. -/
theorem C6_counterexample :
    ((Usrp.run_tx_trace 1 [(false, false)] (Usrp.initTxState [])).sent.map
      Usrp.TxFrame.seq) = [1] ∧ (1 : ℕ) ≠ 0 := by
  decide

/-- C6 (amended): over any run of the egress loop from the initial
state, the seq fields of the emitted frames are exactly 1, 2, ..., n in
emission order (the counter starts at 0 and is incremented before each
use, so the first frame carries seq 1); in particular the sequence is
strictly monotonically increasing over the whole run. -/
theorem C6_seq_monotonic (gain : ℚ) (L : List (Bool × Bool)) (q : List ℕ) :
    (Usrp.run_tx_trace gain L (Usrp.initTxState q)).sent.map
        Usrp.TxFrame.seq =
      List.range' 1
        (Usrp.run_tx_trace gain L (Usrp.initTxState q)).sent.length ∧
    List.Pairwise (· < ·)
      ((Usrp.run_tx_trace gain L (Usrp.initTxState q)).sent.map
        Usrp.TxFrame.seq) := by
  have h := run_tx_trace_seqs gain L (Usrp.initTxState q) rfl rfl
  refine ⟨h, ?_⟩
  rw [h]
  exact List.pairwise_lt_range' 1 _

namespace Zello

/-- The packet ids carried by n successive frames starting from counter
value k. -/
def pktSeq (k n : ℕ) : List ℕ :=
  (List.range n).map fun i => (k + i) % 2147483648

end Zello

theorem land_mask (n : ℕ) : Nat.land n 2147483647 = n % 2147483648 := by
  have h : Nat.land n 2147483647 = n &&& (2 ^ 31 - 1) := rfl
  have h2 : (2147483648 : ℕ) = 2 ^ 31 := by norm_num
  rw [h, h2, Nat.and_pow_two_sub_one_eq_mod]

theorem pktSeq_succ (k n : ℕ) :
    Zello.pktSeq k (n + 1) = k % 2147483648 :: Zello.pktSeq (k + 1) n := by
  simp only [Zello.pktSeq, List.range_succ_eq_map, List.map_cons,
    Nat.add_zero, List.map_map]
  congr 1
  apply List.map_congr_left
  intro i _
  simp only [Function.comp_apply]
  congr 1
  omega

theorem pktSeq_mod (k n : ℕ) :
    Zello.pktSeq (k % 2147483648) n = Zello.pktSeq k n := by
  simp [Zello.pktSeq, Nat.mod_add_mod]

theorem send_frames_spec (sid : ℤ) (L : List (List ℕ)) :
    ∀ s : Zello.ZState, s.ws_open = true → s.stream_id = some sid →
      s.pkt_id < 2147483648 →
      (Zello.send_frames L s).sentFrames =
        s.sentFrames ++ List.zipWith (fun pk o => (sid, pk, o))
          (Zello.pktSeq s.pkt_id L.length) L ∧
      (Zello.send_frames L s).pkt_id =
        (s.pkt_id + L.length) % 2147483648 ∧
      (Zello.send_frames L s).ws_open = true ∧
      (Zello.send_frames L s).stream_id = some sid := by
  induction L with
  | nil =>
      intro s hws hsid hpk
      refine ⟨by simp [Zello.send_frames, Zello.pktSeq], ?_, hws, hsid⟩
      simp only [Zello.send_frames, List.length_nil, Nat.add_zero]
      omega
  | cons o rest ih =>
      intro s hws hsid hpk
      have h1 : (Zello.send_frame true s o).1 =
          { s with pkt_id := (s.pkt_id + 1) % 2147483648,
                   sentFrames := s.sentFrames ++ [(sid, s.pkt_id, o)] } := by
        simp [Zello.send_frame, hsid, hws, land_mask]
      have hrec := ih (Zello.send_frame true s o).1
        (by rw [h1]; exact hws) (by rw [h1]; exact hsid)
        (by rw [h1]; exact Nat.mod_lt _ (by norm_num))
      rw [h1] at hrec
      obtain ⟨hA, hB, hC, hD⟩ := hrec
      have hframes : Zello.send_frames (o :: rest) s =
          Zello.send_frames rest (Zello.send_frame true s o).1 := rfl
      rw [hframes, h1]
      refine ⟨?_, ?_, hC, hD⟩
      · rw [hA, pktSeq_mod, List.length_cons, pktSeq_succ,
          Nat.mod_eq_of_lt hpk]
        simp [List.append_assoc]
      · rw [hB]
        simp only [List.length_cons]
        omega

/-- C7: on each successful stream start, pkt_id is reset to 0 and txing
is set; the i-th media frame then sent carries pkt_id i mod 2^31 (so the
first carries 0), and each send advances pkt_id by one, computed
modulo 2^31 via the 0x7FFFFFFF mask. -/
theorem C7_pkt_id (now : ℚ) (sid : ℤ) (s : Zello.ZState)
    (L : List (List ℕ))
    (h1 : s.ws_open = true) (h2 : s.auth_in_progress = false)
    (h3 : s.channel_ready = true) (h4 : s.last_login_at = none)
    (h5 : s.start_retry_after = none) :
    (Zello.start_tx now (some sid) s).pkt_id = 0 ∧
    (Zello.start_tx now (some sid) s).txing = true ∧
    (Zello.start_tx now (some sid) s).stream_id = some sid ∧
    (Zello.send_frames L (Zello.start_tx now (some sid) s)).sentFrames =
      (Zello.start_tx now (some sid) s).sentFrames ++
        List.zipWith (fun pk o => (sid, pk, o))
          (Zello.pktSeq 0 L.length) L ∧
    (Zello.send_frames L (Zello.start_tx now (some sid) s)).pkt_id =
      L.length % 2147483648 ∧
    (∀ (s2 : Zello.ZState) (o : List ℕ) (sid2 : ℤ),
      s2.stream_id = some sid2 →
      (Zello.send_frame true s2 o).1.pkt_id =
        (s2.pkt_id + 1) % 2147483648) := by
  have hstart : Zello.start_tx now (some sid) s =
      { s with stream_id := some sid, seq := s.seq + 1,
               sent := s.sent ++ [Zello.ZCmd.startStream s.seq],
               txing := true, pkt_id := 0, start_retry_after := none } := by
    simp [Zello.start_tx, h1, h2, h3, h4, h5, Zello.activeWin]
  have hspec := send_frames_spec sid L (Zello.start_tx now (some sid) s)
    (by rw [hstart]; exact h1) (by rw [hstart]) (by rw [hstart]; norm_num)
  refine ⟨by rw [hstart], by rw [hstart], by rw [hstart], ?_, ?_, ?_⟩
  · rw [hspec.1, hstart]
  · rw [hspec.2.1, hstart]
    simp
  · intro s2 o sid2 hsid2
    simp [Zello.send_frame, hsid2, land_mask]
    rcases hws : s2.ws_open with _ | _ <;> simp [Zello.end_tx, hws]

/-- A connection state that is logged in, channel-ready and idle, used
to instantiate the Zello TX theorems. -/
def readyState : Zello.ZState :=
  { seq := 2, logged_in := true, channel_ready := true, txing := false,
    stream_id := none, pkt_id := 9, zello_ptt := false,
    auth_in_progress := false, auth_seq := none, refresh_token := true,
    ws_open := true, woodpecker_until := none,
    empty_msg_backoff_until := none, channel_backoff_until := none,
    start_retry_after := none, last_login_at := none, ptt_down_at := none,
    talk_user := none, sent := [], sentFrames := [], log := [] }

/-- Witness instantiating C7_pkt_id on readyState with a two-frame
stream. -/
theorem C7_pkt_id_witness :
    (Zello.start_tx 0 (some 5) readyState).pkt_id = 0 ∧
    (Zello.start_tx 0 (some 5) readyState).txing = true ∧
    (Zello.start_tx 0 (some 5) readyState).stream_id = some 5 ∧
    (Zello.send_frames [[1], [2]]
        (Zello.start_tx 0 (some 5) readyState)).sentFrames =
      (Zello.start_tx 0 (some 5) readyState).sentFrames ++
        List.zipWith (fun pk o => ((5 : ℤ), pk, o))
          (Zello.pktSeq 0 [[1], [2]].length) [[1], [2]] ∧
    (Zello.send_frames [[1], [2]]
        (Zello.start_tx 0 (some 5) readyState)).pkt_id =
      [[1], [2]].length % 2147483648 ∧
    (∀ (s2 : Zello.ZState) (o : List ℕ) (sid2 : ℤ),
      s2.stream_id = some sid2 →
      (Zello.send_frame true s2 o).1.pkt_id =
        (s2.pkt_id + 1) % 2147483648) :=
  C7_pkt_id 0 5 readyState [[1], [2]] rfl rfl rfl rfl rfl

/-- State with an open socket and active stream 42, used for the
end-of-transmission theorems. -/
def txActiveState : Zello.ZState :=
  { readyState with stream_id := some 42, pkt_id := 7, txing := true }

/-- C5 counterexample: the claim says that after a transmission ends a
stop_stream with the current stream_id is sent and then txing, stream_id
and pkt_id are all cleared; _end_tx sends the stop and clears txing but
leaves stream_id and pkt_id untouched. -/
theorem C5_counterexample :
    (Zello.end_tx txActiveState).txing = false ∧
    (Zello.end_tx txActiveState).sent = [Zello.ZCmd.stopStream 2 42] ∧
    (Zello.end_tx txActiveState).stream_id = some 42 ∧
    (Zello.end_tx txActiveState).stream_id ≠ none ∧
    (Zello.end_tx txActiveState).pkt_id = 7 ∧
    (Zello.end_tx txActiveState).pkt_id ≠ 0 := by
  decide

/-- C5 (amended): when a transmission ends through _end_tx with the
socket open and a stream_id known (as on USRP PTT release, a 1 s read
timeout, or a send failure), a stop_stream carrying the current
stream_id is sent and txing is cleared, while stream_id and pkt_id keep
their values (they are reset only by the next start_tx); the PTT-release
and read-timeout paths of the TX loop invoke exactly this. -/
theorem C5_end_tx (s s2 : Zello.ZState) (sid : ℤ) (now tpd : ℚ)
    (inp : Zello.TxIterInput)
    (h1 : s.ws_open = true) (h2 : s.stream_id = some sid)
    (hw : s2.ws_open = true)
    (hwp : Zello.activeWin s2.woodpecker_until now = false)
    (hem : Zello.activeWin s2.empty_msg_backoff_until now = false) :
    Zello.end_tx s =
      { s with seq := s.seq + 1,
               sent := s.sent ++ [Zello.ZCmd.stopStream s.seq sid],
               txing := false } ∧
    (inp.usrp_ptt = false →
      Zello.runTxBody now inp s2 true =
        (Zello.end_tx { s2 with ptt_down_at := none }, false)) ∧
    (inp.usrp_ptt = true → s2.ptt_down_at = some tpd →
      ¬ (now - tpd < 3 / 20) → inp.pcmRead = none →
      Zello.runTxBody now inp s2 true = (Zello.end_tx s2, false)) := by
  refine ⟨?_, ?_, ?_⟩
  · simp [Zello.end_tx, h1, h2]
  · intro hptt
    simp [Zello.runTxBody, hw, hwp, hem, hptt]
  · intro hptt hpd hdeb hpcm
    simp [Zello.runTxBody, hw, hwp, hem, hptt, hpd, hdeb, hpcm]

/-- Witness instantiating C5_end_tx on txActiveState. -/
theorem C5_end_tx_witness :
    Zello.end_tx txActiveState =
      { txActiveState with
          seq := txActiveState.seq + 1,
          sent := txActiveState.sent ++
            [Zello.ZCmd.stopStream txActiveState.seq 42],
          txing := false } ∧
    Zello.runTxBody 0 ⟨false, none, none, [], true⟩ txActiveState true =
      (Zello.end_tx { txActiveState with ptt_down_at := none }, false) := by
  have h := C5_end_tx txActiveState txActiveState 42 0 0
    ⟨false, none, none, [], true⟩ rfl rfl rfl rfl rfl
  exact ⟨h.1, h.2.1 rfl⟩

theorem ratFloor_eq (q : ℚ) : q.floor = ⌊q⌋ := by
  rw [Rat.floor_def', Rat.floor_def]

theorem end_tx_txing (s : Zello.ZState) : (Zello.end_tx s).txing = false := by
  unfold Zello.end_tx
  split
  · rfl
  · split <;> rfl

theorem end_tx_woodpecker_until (s : Zello.ZState) :
    (Zello.end_tx s).woodpecker_until = s.woodpecker_until := by
  unfold Zello.end_tx
  split
  · rfl
  · split <;> rfl

theorem handleText_woodpecker (now : ℚ) (c : Zello.RxConn) (m : Zello.Msg)
    (hm : m.error = some "woodpecker prohibited") :
    Zello.handleText now c m =
      ({ c with st := Zello.woodpeckerStep now c.st }, false) := by
  obtain ⟨er, cmd, st, hs, sq, sid2, rt, fu⟩ := m
  obtain rfl : er = some "woodpecker prohibited" := hm
  rfl

theorem woodpeckerStep_until (now : ℚ) (s : Zello.ZState) :
    (Zello.woodpeckerStep now s).woodpecker_until =
      some (now + ((match s.woodpecker_until with
        | some u =>
            if now < u then min 8 (Zello.tdSeconds (u - now) * 2) else 3
        | none => 3 : ℕ) : ℚ)) := by
  unfold Zello.woodpeckerStep
  split <;>
  · dsimp only
    split
    · rw [end_tx_woodpecker_until]
    · rfl

/-- A woodpecker prohibited error message. -/
def msgWoodpecker : Zello.Msg :=
  { error := some "woodpecker prohibited", command := none, status := none,
    hasSuccess := false, seq := none, stream_id := none,
    refresh_token := false, from_user := none }

/-- C4 counterexample: the claim says a repeat occurrence within the
window doubles the backoff window (3 s then 6 s); but the code doubles
the truncated remaining time, so a second woodpecker error one second
into the 3 s window yields a 4 s window (until t=5), not the 6 s window
(until t=7) the claim predicts. -/
theorem C4_counterexample :
    (Zello.handleText 0 Zello.freshConn msgWoodpecker).1.st.woodpecker_until
      = some 3 ∧
    (Zello.handleText 1 (Zello.handleText 0 Zello.freshConn
        msgWoodpecker).1 msgWoodpecker).1.st.woodpecker_until = some 5 ∧
    (some (5 : ℚ) ≠ some ((1 : ℚ) + 2 * 3)) := by
  have h0 := handleText_woodpecker 0 Zello.freshConn msgWoodpecker rfl
  have hu1 : (Zello.woodpeckerStep 0 Zello.freshConn.st).woodpecker_until
      = some 3 := by
    rw [woodpeckerStep_until]
    norm_num [Zello.freshConn]
  have h1 := handleText_woodpecker 1
    (Zello.handleText 0 Zello.freshConn msgWoodpecker).1 msgWoodpecker rfl
  refine ⟨by rw [h0]; exact hu1, ?_, by norm_num⟩
  rw [h1, h0]
  rw [woodpeckerStep_until]
  simp only [hu1]
  rw [if_pos (by norm_num : (1 : ℚ) < 3)]
  norm_num [Zello.tdSeconds, ratFloor_eq, min_def]
  have h2 : Int.toNat 2 % 86400 = 2 := by decide
  rw [h2]
  norm_num

/-- C4 (amended): on a woodpecker prohibited error the RX loop applies
woodpeckerStep and continues: the in-progress transmission is ended
(txing cleared, a stop_stream sent when the socket is open and a
stream_id is known); the window becomes now + 3 s when no window is
active and now + min(8, 2 * whole-seconds-remaining) on a repeat within
the active window (capped at 8 s); and while now is inside the window
the TX loop body is a no-op, so in particular no start_stream is
issued until the window elapses. -/
theorem C4_woodpecker (now tg u : ℚ) (c : Zello.RxConn) (m : Zello.Msg)
    (s s2 : Zello.ZState) (sid : ℤ) (inp : Zello.TxIterInput) (snd : Bool)
    (hm : m.error = some "woodpecker prohibited") :
    Zello.handleText now c m =
      ({ c with st := Zello.woodpeckerStep now c.st }, false) ∧
    (Zello.woodpeckerStep now s).txing = false ∧
    (s.txing = true → s.ws_open = true → s.stream_id = some sid →
      (Zello.woodpeckerStep now s).sent =
        s.sent ++ [Zello.ZCmd.stopStream s.seq sid]) ∧
    (s.woodpecker_until = none →
      (Zello.woodpeckerStep now s).woodpecker_until =
        some (now + ((3 : ℕ) : ℚ))) ∧
    (s.woodpecker_until = some u → now < u →
      (Zello.woodpeckerStep now s).woodpecker_until =
        some (now +
          ((min 8 (Zello.tdSeconds (u - now) * 2) : ℕ) : ℚ))) ∧
    (s2.ws_open = true → s2.woodpecker_until = some u → tg < u →
      Zello.runTxBody tg inp s2 snd = (s2, snd)) := by
  refine ⟨handleText_woodpecker now c m hm, ?_, ?_, ?_, ?_, ?_⟩
  · unfold Zello.woodpeckerStep
    split <;>
    · dsimp only
      split
      · exact end_tx_txing _
      · next h => simpa using h
  · intro htx hws hsid
    simp [Zello.woodpeckerStep, htx, Zello.end_tx, hws, hsid]
  · intro hnone
    rw [woodpeckerStep_until]
    simp only [hnone]
  · intro hsome hlt
    rw [woodpeckerStep_until]
    simp only [hsome]
    rw [if_pos hlt]
  · intro hws hwin hlt
    have hact : Zello.activeWin s2.woodpecker_until tg = true := by
      simp [Zello.activeWin, hwin, hlt]
    simp [Zello.runTxBody, hws, hact]

/-- Witness instantiating C4_woodpecker: handler dispatch on freshConn,
active-TX teardown on txActiveState, and the TX-loop gate with a live
window. -/
theorem C4_woodpecker_witness :
    Zello.handleText 0 Zello.freshConn msgWoodpecker =
      ({ Zello.freshConn with
          st := Zello.woodpeckerStep 0 Zello.freshConn.st }, false) ∧
    (Zello.woodpeckerStep 0 txActiveState).sent =
      txActiveState.sent ++ [Zello.ZCmd.stopStream txActiveState.seq 42] ∧
    Zello.runTxBody 5 ⟨true, some (List.replicate 320 0), none, [], true⟩
      { txActiveState with woodpecker_until := some 10 } false =
      ({ txActiveState with woodpecker_until := some 10 }, false) := by
  have h := C4_woodpecker 0 5 10 Zello.freshConn msgWoodpecker
    txActiveState { txActiveState with woodpecker_until := some 10 } 42
    ⟨true, some (List.replicate 320 0), none, [], true⟩ false rfl
  exact ⟨h.1, h.2.2.1 rfl rfl rfl, h.2.2.2.2.2 rfl rfl (by norm_num)⟩

theorem commandStep_fields (s : Zello.ZState) (m : Zello.Msg) :
    (Zello.commandStep s m).logged_in = s.logged_in ∧
    (Zello.commandStep s m).log.count Zello.LogEvent.loggedIn =
      s.log.count Zello.LogEvent.loggedIn ∧
    (Zello.commandStep s m).log.count Zello.LogEvent.authFailed =
      s.log.count Zello.LogEvent.authFailed := by
  unfold Zello.commandStep
  cases m.command with
  | none => exact ⟨rfl, rfl, rfl⟩
  | some cmd =>
      dsimp only
      split
      · simp [List.count_append]
      · split
        · simp [List.count_append]
        · split
          · split <;> simp [List.count_append]
          · exact ⟨rfl, rfl, rfl⟩

theorem successStep_fields (now : ℚ) (s : Zello.ZState) (m : Zello.Msg) :
    (Zello.successStep now s m).1.logged_in = s.logged_in ∧
    (Zello.successStep now s m).1.log.count Zello.LogEvent.loggedIn =
      s.log.count Zello.LogEvent.loggedIn ∧
    (Zello.successStep now s m).1.log.count Zello.LogEvent.authFailed =
      s.log.count Zello.LogEvent.authFailed ∧
    (Zello.successStep now s m).2 = m.hasSuccess := by
  unfold Zello.successStep
  split
  · next hs =>
    dsimp only
    split <;> split <;> split <;> simp [List.count_append, hs]
  · next hs =>
    simp only [Bool.not_eq_true] at hs
    simp [hs]

theorem end_tx_logged_in (s : Zello.ZState) :
    (Zello.end_tx s).logged_in = s.logged_in ∧
    (Zello.end_tx s).log = s.log := by
  unfold Zello.end_tx
  split
  · exact ⟨rfl, rfl⟩
  · split <;> exact ⟨rfl, rfl⟩

theorem woodpeckerStep_logs (now : ℚ) (s : Zello.ZState) :
    (Zello.woodpeckerStep now s).logged_in = s.logged_in ∧
    (Zello.woodpeckerStep now s).log.count Zello.LogEvent.loggedIn =
      s.log.count Zello.LogEvent.loggedIn ∧
    (Zello.woodpeckerStep now s).log.count Zello.LogEvent.authFailed =
      s.log.count Zello.LogEvent.authFailed := by
  unfold Zello.woodpeckerStep
  split <;>
  · dsimp only
    split
    · refine ⟨?_, ?_, ?_⟩ <;>
        simp [(end_tx_logged_in _).1, (end_tx_logged_in _).2,
          List.count_append]
    · simp [List.count_append]

theorem emptyMessageStep_logs (now : ℚ) (s : Zello.ZState) :
    (Zello.emptyMessageStep now s).logged_in = s.logged_in ∧
    (Zello.emptyMessageStep now s).log.count Zello.LogEvent.loggedIn =
      s.log.count Zello.LogEvent.loggedIn ∧
    (Zello.emptyMessageStep now s).log.count Zello.LogEvent.authFailed =
      s.log.count Zello.LogEvent.authFailed := by
  unfold Zello.emptyMessageStep
  split <;>
  · dsimp only
    split
    · refine ⟨?_, ?_, ?_⟩ <;>
        simp [(end_tx_logged_in _).1, (end_tx_logged_in _).2,
          List.count_append]
    · simp [List.count_append]

/-- The per-connection invariant tying the Logged in! log line to the
logged_in flag and the loop-local authorisation wittness. -/
def ConnInv (c : Zello.RxConn) : Prop :=
  c.st.log.count Zello.LogEvent.loggedIn =
    (if c.st.logged_in then 1 else 0) ∧
  (c.st.logged_in = true → c.is_authorized = true) ∧
  c.is_channel_available = false

theorem handleText_inv (now : ℚ) (c : Zello.RxConn) (m : Zello.Msg)
    (h : ConnInv c) :
    ((Zello.handleText now c m).2 = false →
      ConnInv (Zello.handleText now c m).1) ∧
    ((Zello.handleText now c m).2 = true →
      (Zello.handleText now c m).1.st.log.count Zello.LogEvent.loggedIn ≤ 1 ∧
      ((Zello.handleText now c m).1.st.logged_in = true →
        (Zello.handleText now c m).1.st.log.count Zello.LogEvent.loggedIn = 1 ∧
        (Zello.handleText now c m).1.is_authorized = true)) := by
  obtain ⟨hc1, hc2, hc3⟩ := h
  unfold Zello.handleText
  cases herr : m.error with
  | some e =>
      dsimp only
      split
      · constructor
        · intro hb
          simp at hb
        · intro hb
          constructor
          · simp only [Zello.reset_connection_state, List.count_append]
            simp only [hc1]
            split <;> simp
          · intro hl
            simp [Zello.reset_connection_state] at hl
      · split
        · constructor
          · intro hb
            have hw := woodpeckerStep_logs now c.st
            exact ⟨by rw [hw.2.1, hw.1]; exact hc1,
              fun hl => hc2 (by rw [← hw.1]; exact hl), hc3⟩
          · intro hb
            simp at hb
        · split
          · constructor
            · intro hb
              have hw := emptyMessageStep_logs now c.st
              exact ⟨by rw [hw.2.1, hw.1]; exact hc1,
                fun hl => hc2 (by rw [← hw.1]; exact hl), hc3⟩
            · intro hb
              simp at hb
          · split
            · constructor
              · intro hb
                refine ⟨?_, ?_, hc3⟩
                · simp [Zello.channelNotReadyStep, List.count_append, hc1]
                · intro hl
                  apply hc2
                  simpa [Zello.channelNotReadyStep] using hl
              · intro hb
                simp at hb
            · constructor
              · intro hb
                simp at hb
              · intro hb
                constructor
                · simp only [List.count_append]
                  simp only [hc1]
                  split <;> simp
                · intro hl
                  simp only at hl
                  refine ⟨?_, hc2 hl⟩
                  simp only [List.count_append]
                  simp only [hc1, hl]
                  simp
  | none =>
      dsimp only
      have hcf := commandStep_fields c.st m
      have hsf := successStep_fields now (Zello.commandStep c.st m) m
      split
      · next hguard =>
        obtain ⟨hga, hgc⟩ := hguard
        constructor
        · intro hb
          simp at hb
        · intro hb
          constructor
          · simp only [List.count_append]
            simp only [hsf.2.1, hcf.2.1, hc1]
            split <;> simp
          · intro hl
            simp only at hl
            have hli : c.st.logged_in = true := by
              rw [← hcf.1, ← hsf.1]
              exact hl
            exact absurd (by simp [hc2 hli] : (c.is_authorized ||
              (Zello.successStep now (Zello.commandStep c.st m) m).2) = true)
              (by simpa using hga)
      · next hguard =>
        constructor
        · intro hb
          have hchan : ¬ (c.is_channel_available = true) := by simp [hc3]
          have hauth : (c.is_authorized ||
              (Zello.successStep now
                (Zello.commandStep c.st m) m).2) = true := by
            by_contra hcon
            exact hguard ⟨by simpa using hcon, hchan⟩
          refine ⟨?_, fun _ => hauth, hc3⟩
          cases hl : (Zello.successStep now
              (Zello.commandStep c.st m) m).1.logged_in with
          | true =>
              have hlc : c.st.logged_in = true := by
                rw [← hcf.1, ← hsf.1]
                exact hl
              simp [hl, List.count_append, hsf.2.1, hcf.2.1, hc1, hlc]
          | false =>
              have hlc : c.st.logged_in = false := by
                rw [← hcf.1, ← hsf.1]
                exact hl
              simp [hl, List.count_append, hsf.2.1, hcf.2.1, hc1, hlc]
        · intro hb
          simp at hb

theorem freshConn_inv : ConnInv Zello.freshConn := by
  refine ⟨rfl, ?_, rfl⟩
  intro h
  exact absurd h (by decide)

theorem runRxTrace_inv (L : List (ℚ × Zello.Msg)) :
    ∀ c : Zello.RxConn, ConnInv c →
    (Zello.runRxTrace L c).st.log.count Zello.LogEvent.loggedIn ≤ 1 ∧
    ((Zello.runRxTrace L c).st.logged_in = true →
      (Zello.runRxTrace L c).st.log.count Zello.LogEvent.loggedIn = 1 ∧
      (Zello.runRxTrace L c).is_authorized = true) := by
  induction L with
  | nil =>
      intro c hc
      obtain ⟨hc1, hc2, hc3⟩ := hc
      unfold Zello.runRxTrace
      refine ⟨by rw [hc1]; split <;> simp,
        fun hl => ⟨by rw [hc1, if_pos hl], hc2 hl⟩⟩
  | cons tm rest ih =>
      intro c hc
      obtain ⟨t, m⟩ := tm
      have h := handleText_inv t c m hc
      unfold Zello.runRxTrace
      rcases hr : Zello.handleText t c m with ⟨c1, brk⟩
      rw [hr] at h
      cases brk
      · exact ih c1 (h.1 rfl)
      · exact h.2 rfl

theorem handleText_success (now : ℚ) (c : Zello.RxConn) (m : Zello.Msg)
    (hm : m.error = none) (hs : m.hasSuccess = true) :
    (Zello.handleText now c m).1.st.logged_in = true ∧
    (Zello.handleText now c m).2 = false := by
  unfold Zello.handleText
  rw [hm]
  dsimp only
  have hsf := successStep_fields now (Zello.commandStep c.st m) m
  have hp2 : (Zello.successStep now (Zello.commandStep c.st m) m).2 = true := by
    rw [hsf.2.2.2, hs]
  simp [hp2]

/-- A success response whose seq does not match the pending auth seq. -/
def msgSuccess999 : Zello.Msg :=
  { error := none, command := none, status := none, hasSuccess := true,
    seq := some 999, stream_id := none, refresh_token := false,
    from_user := none }

/-- C2 counterexample: the claim says logged_in becomes true only after
a success whose seq matches the auth seq AND an on_channel_status online
has been observed; but on a fresh connection a single success message
with a non-matching seq (999 against pending auth seq 0) and no channel
status at all already flips logged_in to true and logs Logged in!. -/
theorem C2_counterexample :
    (Zello.handleText 0 Zello.freshConn msgSuccess999).1.st.logged_in
      = true ∧
    (Zello.handleText 0 Zello.freshConn msgSuccess999).1.st.log =
      [Zello.LogEvent.loggedIn] ∧
    (Zello.handleText 0 Zello.freshConn msgSuccess999).2 = false ∧
    (Zello.handleText 0 Zello.freshConn msgSuccess999).1.st.auth_seq =
      some 0 ∧
    msgSuccess999.seq ≠ some 0 ∧
    (Zello.handleText 0 Zello.freshConn msgSuccess999).1.st.channel_ready
      = false ∧
    (Zello.handleText 0 Zello.freshConn
        msgSuccess999).1.st.log.count Zello.LogEvent.channelReady = 0 := by
  decide

/-- C2 (amended): logged_in becomes true as soon as any text message
bearing a success field is processed, regardless of seq match or channel
status; over any single connection the Logged in! line is logged at most
once, exactly once while logged_in holds, and logged_in implies that
some success-bearing message was seen (the loop-local is_authorized
witness). -/
theorem C2_logged_in (L : List (ℚ × Zello.Msg)) (now : ℚ)
    (c : Zello.RxConn) (m : Zello.Msg)
    (hm : m.error = none) (hs : m.hasSuccess = true) :
    (Zello.runRxTrace L Zello.freshConn).st.log.count
        Zello.LogEvent.loggedIn ≤ 1 ∧
    ((Zello.runRxTrace L Zello.freshConn).st.logged_in = true →
      (Zello.runRxTrace L Zello.freshConn).st.log.count
          Zello.LogEvent.loggedIn = 1 ∧
      (Zello.runRxTrace L Zello.freshConn).is_authorized = true) ∧
    (Zello.handleText now c m).1.st.logged_in = true ∧
    (Zello.handleText now c m).2 = false := by
  have ht := runRxTrace_inv L Zello.freshConn freshConn_inv
  have hstep := handleText_success now c m hm hs
  exact ⟨ht.1, ht.2, hstep.1, hstep.2⟩

/-- Witness instantiating C2_logged_in on the empty trace and the
mismatched-seq success message. -/
theorem C2_logged_in_witness :
    (Zello.runRxTrace [] Zello.freshConn).st.log.count
        Zello.LogEvent.loggedIn ≤ 1 ∧
    ((Zello.runRxTrace [] Zello.freshConn).st.logged_in = true →
      (Zello.runRxTrace [] Zello.freshConn).st.log.count
          Zello.LogEvent.loggedIn = 1 ∧
      (Zello.runRxTrace [] Zello.freshConn).is_authorized = true) ∧
    (Zello.handleText 0 Zello.freshConn msgSuccess999).1.st.logged_in
      = true ∧
    (Zello.handleText 0 Zello.freshConn msgSuccess999).2 = false :=
  C2_logged_in [] 0 Zello.freshConn msgSuccess999 rfl rfl

theorem handleText_chan (t : ℚ) (c : Zello.RxConn) (m : Zello.Msg) :
    (Zello.handleText t c m).1.is_channel_available =
      c.is_channel_available := by
  unfold Zello.handleText
  cases m.error with
  | some e =>
      dsimp only
      split
      · rfl
      · split
        · rfl
        · split
          · rfl
          · split
            · rfl
            · rfl
  | none =>
      dsimp only
      split <;> rfl

/-- C10: on a connection where no success has been seen yet
(is_authorized false, and is_channel_available still false as it is at
initialisation), any text message that carries no error and no success
field, such as an on_channel_status or on_stream_start notification,
makes the RX loop log Authentication failed and break the connection;
and no branch of the loop ever changes is_channel_available. -/
theorem C10_auth_failed (now : ℚ) (c : Zello.RxConn) (m : Zello.Msg)
    (hauth : c.is_authorized = false)
    (hchan : c.is_channel_available = false)
    (hm : m.error = none) (hs : m.hasSuccess = false) :
    (Zello.handleText now c m).2 = true ∧
    (Zello.handleText now c m).1.st.log.count Zello.LogEvent.authFailed =
      c.st.log.count Zello.LogEvent.authFailed + 1 ∧
    (∀ (t : ℚ) (c2 : Zello.RxConn) (m2 : Zello.Msg),
      (Zello.handleText t c2 m2).1.is_channel_available =
        c2.is_channel_available) := by
  have hcf := commandStep_fields c.st m
  have hsf := successStep_fields now (Zello.commandStep c.st m) m
  have hp2 : (Zello.successStep now (Zello.commandStep c.st m) m).2
      = false := by
    rw [hsf.2.2.2, hs]
  refine ⟨?_, ?_, fun t c2 m2 => handleText_chan t c2 m2⟩
  · unfold Zello.handleText
    rw [hm]
    dsimp only
    simp [hp2, hauth, hchan]
  · unfold Zello.handleText
    rw [hm]
    dsimp only
    simp [hp2, hauth, hchan, List.count_append, hsf.2.2.1, hcf.2.2]

/-- An on_channel_status online notification. -/
def msgChannelOnline : Zello.Msg :=
  { error := none, command := some "on_channel_status",
    status := some "online", hasSuccess := false, seq := none,
    stream_id := none, refresh_token := false, from_user := none }

/-- Witness instantiating C10_auth_failed: an on_channel_status online
message arriving on a fresh connection before any success. -/
theorem C10_auth_failed_witness :
    (Zello.handleText 0 Zello.freshConn msgChannelOnline).2 = true ∧
    (Zello.handleText 0 Zello.freshConn
        msgChannelOnline).1.st.log.count Zello.LogEvent.authFailed =
      Zello.freshConn.st.log.count Zello.LogEvent.authFailed + 1 ∧
    (∀ (t : ℚ) (c2 : Zello.RxConn) (m2 : Zello.Msg),
      (Zello.handleText t c2 m2).1.is_channel_available =
        c2.is_channel_available) :=
  C10_auth_failed 0 Zello.freshConn msgChannelOnline rfl rfl rfl rfl
